import Mathlib

/-!
Verification of the discovery-and-status core of `git-status-dash`.

The development is a shallow embedding of the Go implementation (the main
binary: `walkWithDepth`, `findGitRepos`, `getGitStatus`) together with the
Node implementation's probe (`index.mjs`, `getGitStatus`) where a claim
compares the two.  External effects (directory listings, subprocess
outputs, `os.Stat`) are passed in explicitly as data; machine behaviour is
otherwise translated line by line from the source.
-/

namespace GitStatusDash

/-- Cause of a failed subprocess call: the context deadline expired
(`context.WithTimeout` killed the process) or any other failure
(tool missing, non-zero exit, corrupted repository).  The Go code never
inspects the cause: `getGitStatus` only checks `err != nil`. -/
inductive CmdFailure where
  | timeout
  | other
deriving DecidableEq

/-- Outcome of the five external `git` subprocess calls made by the Go
`getGitStatus`, plus the `os.Stat` call.  Strings are the captured stdout
after `strings.TrimSpace`, exactly as the Go code consumes them.

* `statusQuery`: `git status --porcelain`; the Go code aborts on its
  error (`if err != nil { return status }`), so it is an `Except`.
* `aheadOut`/`behindOut`/`branchOut`/`commitOut`: the Go code ignores the
  error of these calls (`out, _ := cmd.Output()`) and uses whatever stdout
  was captured — on failure that captured stdout (typically empty). -/
structure GitEnv where
  statModTime : Option Nat
  statusQuery : Except CmdFailure String
  aheadOut : String
  behindOut : String
  branchOut : String
  commitOut : String

/-- The Go `GitStatus` struct (fields used by the core). `ModTime` is
modelled as a `Nat`; the Go zero value `time.Time{}` becomes `0`. -/
structure GitStatus where
  Symbol : String
  Message : String
  Branch : String
  LastCommit : String
  RepoPath : String
  RelativePath : String
  ModTime : Nat
deriving DecidableEq

/-- `filepath.Rel(baseDir, repoPath)` for the configurations the walker
produces: `repoPath` is `baseDir` itself or a path strictly below it. -/
def relPathOf (baseDir repoPath : String) : String :=
  if repoPath = baseDir then "." else repoPath.drop (baseDir.length + 1)

/-- The six-way classification at the end of the Go `getGitStatus`
(lines 472–489 of the main source file), on the trimmed output strings:

```
if statusStr == "" && ahead == "0" && behind == "0" { "✓", "Up to date" }
else if ahead != "0" && behind != "0" { "↕", "Diverged (%s ahead, %s behind)" }
else if ahead != "0" { "↑", "%s commit(s) to push" }
else if behind != "0" { "↓", "%s commit(s) to pull" }
else { "✗", "Uncommitted changes" }
```

The Node probe (`index.mjs`) performs the identical comparison chain. -/
def classifyStatus (statusStr ahead behind : String) : String × String :=
  if statusStr = "" ∧ ahead = "0" ∧ behind = "0" then
    ("✓", "Up to date")
  else if ahead ≠ "0" ∧ behind ≠ "0" then
    ("↕", "Diverged (" ++ ahead ++ " ahead, " ++ behind ++ " behind)")
  else if ahead ≠ "0" then
    ("↑", ahead ++ " commit(s) to push")
  else if behind ≠ "0" then
    ("↓", behind ++ " commit(s) to pull")
  else
    ("✗", "Uncommitted changes")

/-- The Go `getGitStatus(repoPath, baseDir, cache)`.  The returned pair is
(the `GitStatus` the function returns, the cache map after the call).  The
source function receives the cache but neither reads nor writes it — its
body starts with the comment "Remove cache for now to fix race condition /
TODO: Add proper mutex if we want caching" — so the cache component is
returned unchanged. -/
def getGitStatus (repoPath baseDir : String) (env : GitEnv)
    (cache : List (String × GitStatus)) :
    GitStatus × List (String × GitStatus) :=
  let modTime := match env.statModTime with
    | some t => t
    | none => 0
  let base : GitStatus :=
    { Symbol := "⚠"
      Message := "Error accessing repository"
      Branch := ""
      LastCommit := ""
      RepoPath := repoPath
      RelativePath := relPathOf baseDir repoPath
      ModTime := modTime }
  match env.statusQuery with
  | Except.error _ => (base, cache)
  | Except.ok statusStr =>
    let sm := classifyStatus statusStr env.aheadOut env.behindOut
    ({ base with
        Symbol := sm.1
        Message := sm.2
        Branch := env.branchOut
        LastCommit := env.commitOut }, cache)

/-- The §4.2 classification table of the specification, written from the
spec's words, to be compared with `classifyStatus`: ahead/behind rows are
consulted before the dirty-only row, and a repository is `Synced` only
when not dirty with both counts zero. -/
def specClassification (isDirty : Bool) (aheadCount behindCount : Nat) :
    String × String :=
  if aheadCount > 0 ∧ behindCount > 0 then
    ("↕", "Diverged (" ++ Nat.repr aheadCount ++ " ahead, " ++
      Nat.repr behindCount ++ " behind)")
  else if aheadCount > 0 then
    ("↑", Nat.repr aheadCount ++ " commit(s) to push")
  else if behindCount > 0 then
    ("↓", Nat.repr behindCount ++ " commit(s) to pull")
  else if isDirty then
    ("✗", "Uncommitted changes")
  else
    ("✓", "Up to date")

/-! ### Decimal representations of counts

`git rev-list --count` prints the count in decimal; after trimming, the
probe sees `Nat.repr n`.  The classification compares that string against
`"0"`, so we relate the two. -/

theorem toDigitsCore_succ (b f n : Nat) (l : List Char) :
    Nat.toDigitsCore b (f + 1) n l =
      if n / b = 0 then Nat.digitChar (n % b) :: l
      else Nat.toDigitsCore b f (n / b) (Nat.digitChar (n % b) :: l) := rfl

theorem toDigitsCore_length_mono (b : Nat) :
    ∀ (f n : Nat) (l : List Char),
      l.length ≤ (Nat.toDigitsCore b f n l).length := by
  intro f
  induction f with
  | zero => intro n l; exact Nat.le_refl _
  | succ f ih =>
    intro n l
    rw [toDigitsCore_succ]
    split
    · simp
    · have h := ih (n / b) (Nat.digitChar (n % b) :: l)
      simp only [List.length_cons] at h
      omega

theorem toDigitsCore_length_ge (b f n : Nat) (l : List Char) :
    l.length + 1 ≤ (Nat.toDigitsCore b (f + 1) n l).length := by
  rw [toDigitsCore_succ]
  split
  · simp
  · have h := toDigitsCore_length_mono b f (n / b) (Nat.digitChar (n % b) :: l)
    simp only [List.length_cons] at h
    omega

theorem repr_eq_zero_iff (n : Nat) : Nat.repr n = "0" ↔ n = 0 := by
  constructor
  · intro h
    by_contra hn
    unfold Nat.repr Nat.toDigits at h
    rcases Nat.lt_or_ge n 10 with hlt | hge
    · have hdiv : n / 10 = 0 := Nat.div_eq_of_lt hlt
      rw [toDigitsCore_succ, if_pos hdiv] at h
      have hchar : Nat.digitChar (n % 10) = '0' := by
        have hd := congrArg String.data h
        simpa [List.asString] using hd
      have hmod : n % 10 = n := Nat.mod_eq_of_lt hlt
      rw [hmod] at hchar
      interval_cases n <;> simp_all [Nat.digitChar]
    · have hdiv : ¬ n / 10 = 0 := by
        intro hd
        rcases Nat.div_eq_zero_iff (by omega : 0 < 10) |>.mp hd with h10
        omega
      rw [toDigitsCore_succ, if_neg hdiv] at h
      obtain ⟨m, hm⟩ : ∃ m, n = m + 1 := ⟨n - 1, by omega⟩
      have hlen : 2 ≤ (Nat.toDigitsCore 10 n (n / 10)
          [Nat.digitChar (n % 10)]).length := by
        conv_lhs => rw [show (2 : Nat) = [Nat.digitChar (n % 10)].length + 1 by simp]
        rw [hm]
        exact toDigitsCore_length_ge 10 m ((m + 1) / 10) _
      have hone : (Nat.toDigitsCore 10 n (n / 10)
          [Nat.digitChar (n % 10)]).length = 1 := by
        have hd := congrArg String.data h
        simp only [List.asString] at hd
        rw [hd]
        rfl
      omega
  · intro h
    subst h
    rfl

theorem repr_ne_zero {n : Nat} (h : n ≠ 0) : Nat.repr n ≠ "0" := by
  intro hc
  exact h ((repr_eq_zero_iff n).mp hc)

/-- The string-level classification agrees with the spec's table whenever
the count strings are genuine decimal counts. -/
theorem classifyStatus_eq_spec (statusStr : String) (a b : Nat) :
    classifyStatus statusStr (Nat.repr a) (Nat.repr b) =
      specClassification (!(statusStr == "")) a b := by
  by_cases ha : a = 0 <;> by_cases hb : b = 0 <;>
    by_cases hs : statusStr = "" <;>
      simp_all [classifyStatus, specClassification, repr_eq_zero_iff,
        Nat.pos_iff_ne_zero]

/-! ### Repository walker

`walkWithDepth` (Go) reads a directory with `os.ReadDir`, whose entries
are sorted ascending by filename, and iterates them in that order:
a non-directory entry is skipped; the entry `".git"` makes the function
append one result for the current directory and `return` (ending the
iteration, so no entry after `".git"` in sort order is visited); the
entries `"node_modules"`, `".cache"` and `".venv"` are skipped; any other
directory entry is recursed into with the depth guard
`maxDepth != -1 && currentDepth > maxDepth` applied at entry.

The model takes the directory tree as data; each directory's child list
stands for the `os.ReadDir` result, so theorems instantiate it in
name-sorted order (checked by `sortedByName` where the order matters).
The model returns the repository roots in sequential discovery order; the
Go code probes each in its own goroutine and appends results in
completion order, which the aggregation model below takes as an explicit
permutation of this list. -/

inductive FsEntry where
  | file (name : String)
  | dir (name : String) (children : List FsEntry)

def FsEntry.name : FsEntry → String
  | .file n => n
  | .dir n _ => n

/-- The hardcoded skip test on line 418 of the Go source:
`entry.Name() == "node_modules" || entry.Name() == ".cache" || entry.Name() == ".venv"`. -/
def skipName (n : String) : Bool :=
  n == "node_modules" || n == ".cache" || n == ".venv"

/-- One `for` loop of the Go `walkWithDepth` over the (sorted) entries of
the directory at `currentPath`; the recursive call carries the Go entry
guard inlined. -/
def walkEntries (currentPath : String) (currentDepth : Nat) (maxDepth : Int) :
    List FsEntry → List String
  | [] => []
  | FsEntry.file _ :: rest => walkEntries currentPath currentDepth maxDepth rest
  | FsEntry.dir name children :: rest =>
    if name = ".git" then
      [currentPath]
    else if skipName name then
      walkEntries currentPath currentDepth maxDepth rest
    else
      (if maxDepth ≠ -1 ∧ (currentDepth + 1 : Int) > maxDepth then []
       else walkEntries (currentPath ++ "/" ++ name) (currentDepth + 1)
         maxDepth children) ++
      walkEntries currentPath currentDepth maxDepth rest

/-- The Go `walkWithDepth(currentPath, …, currentDepth, maxDepth, …)`:
depth guard, then the loop over the directory's entries. -/
def walkWithDepth (currentPath : String) (currentDepth : Nat) (maxDepth : Int)
    (entries : List FsEntry) : List String :=
  if maxDepth ≠ -1 ∧ (currentDepth : Int) > maxDepth then []
  else walkEntries currentPath currentDepth maxDepth entries

/-- `os.ReadDir` returns entries sorted ascending by filename; this checks
that a modelled child list is such a listing (distinct, sorted names). -/
def sortedFromName : String → List FsEntry → Bool
  | _, [] => true
  | prev, e :: rest =>
    (decide (prev.data < e.name.data)) && sortedFromName e.name rest

def sortedByName : List FsEntry → Bool
  | [] => true
  | e :: rest => sortedFromName e.name rest

/-- Aggregation comparator, from `sort.Slice` in the Go `findGitRepos`:
`repos[i].ModTime.After(repos[j].ModTime)` puts larger `ModTime` first, so
the sorted output is descending by `ModTime`.  `sort.Slice` promises only
a sorted permutation (it is not stable); `insertionSort` with the
reflexive closure of the comparator realises that promise. -/
def sortByModTime (l : List GitStatus) : List GitStatus :=
  List.insertionSort (fun a b => b.ModTime ≤ a.ModTime) l

/-- Probe one discovered repository root, as the per-repository goroutine
in the Go `walkWithDepth` does (`getGitStatus(rp, baseDir, cache)`). -/
def runProbe (baseDir : String) (envOf : String → GitEnv) (rp : String) :
    GitStatus :=
  (getGitStatus rp baseDir (envOf rp) []).1

/-- The Go `findGitRepos(baseDir, maxDepth, cache)`: walk the tree, probe
every discovered root concurrently, collect the results in completion
order, then sort by modification time (newest first).  `completed` is the
order in which the goroutines appended their results — some permutation
of the walker's discovery order, fixed by the scheduler, not by the code. -/
def findGitRepos (baseDir : String) (envOf : String → GitEnv)
    (completed : List String) : List GitStatus :=
  sortByModTime (completed.map (runProbe baseDir envOf))

/-! ### The Node probe (`index.mjs`, `getGitStatus`)

The Node implementation runs the same five git queries; the ahead, behind,
branch and last-commit promises carry `.catch` handlers that substitute
`"0"`, `"0"`, `""` and `""` respectively, so only a `status --porcelain`
failure reaches the catch-all.  Every computed result — error results
included — is stored in the `cache` map under the key
`` `${repoPath}-status` `` before being returned; a cached entry is
returned as-is without re-probing. -/

structure JsGitEnv where
  statusQuery : Option String
  aheadQuery : Option String
  behindQuery : Option String
  branchQuery : Option String
  commitQuery : Option String

structure JsResult where
  symbol : String
  message : String
  branch : String
  lastCommit : String
deriving DecidableEq

def jsGetGitStatus (repoPath : String) (env : JsGitEnv)
    (cache : List (String × JsResult)) :
    JsResult × List (String × JsResult) :=
  let cacheKey := repoPath ++ "-status"
  match cache.lookup cacheKey with
  | some r => (r, cache)
  | none =>
    match env.statusQuery with
    | none =>
      let r : JsResult :=
        { symbol := "⚠", message := "Error accessing repository"
          branch := "", lastCommit := "" }
      (r, (cacheKey, r) :: cache)
    | some statusStr =>
      let ahead := env.aheadQuery.getD "0"
      let behind := env.behindQuery.getD "0"
      let sm := classifyStatus statusStr ahead behind
      let r : JsResult :=
        { symbol := sm.1, message := sm.2
          branch := env.branchQuery.getD ""
          lastCommit := env.commitQuery.getD "" }
      (r, (cacheKey, r) :: cache)

/-- The default configuration's `skip_directories` list
(`getDefaultConfig`, `config.go` lines 315–322). -/
def defaultSkipDirs : List String :=
  ["node_modules", ".cache", ".venv", "venv", "__pycache__",
   ".tox", "build", "dist", ".npm", ".yarn", "vendor",
   "target", ".gradle", ".idea", ".vscode", "Pods", "DerivedData",
   ".git", ".svn", ".hg", ".bzr",
   "coverage", ".nyc_output", ".pytest_cache",
   "logs", "tmp", "temp", ".tmp"]

/-! ### Claim theorems: the status probe -/

/-- Claim C1: for every repository whose working-tree-status query
succeeds and whose ahead/behind queries return genuine decimal counts,
the probe's symbol and message are exactly the function of
(isDirty, aheadCount, behindCount) given by the §4.2 table, with the
ahead/behind branches evaluated before the dirty-only branch, for all
nine logical combinations of the three inputs. -/
theorem probe_classification_matches_table
    (repoPath baseDir : String) (mt : Option Nat) (statusStr : String)
    (a b : Nat) (branchOut commitOut : String)
    (cache : List (String × GitStatus)) :
    ((getGitStatus repoPath baseDir
        ⟨mt, Except.ok statusStr, Nat.repr a, Nat.repr b, branchOut, commitOut⟩
        cache).1.Symbol,
     (getGitStatus repoPath baseDir
        ⟨mt, Except.ok statusStr, Nat.repr a, Nat.repr b, branchOut, commitOut⟩
        cache).1.Message) =
      specClassification (!(statusStr == "")) a b := by
  simp only [getGitStatus]
  rw [← classifyStatus_eq_spec statusStr a b]

/-- A repository with no upstream configured and one uncommitted file:
`git status --porcelain` succeeds with non-empty output, the two
`git rev-list --count` calls fail (exit 128) with empty captured stdout. -/
def envNoUpstreamDirty : GitEnv :=
  { statModTime := some 100
    statusQuery := Except.ok "?? notes.txt"
    aheadOut := ""
    behindOut := ""
    branchOut := "main"
    commitOut := "abc1234 2 days ago zkbkb" }

/-- Claim C2, evaluated at the failing input: the Go probe does NOT
degrade a failed ahead/behind query to count 0 — the trimmed empty stdout
`""` differs from `"0"`, so both `!= "0"` tests succeed and the
no-upstream dirty repository is classified Diverged with the garbled
detail "Diverged ( ahead,  behind)" instead of Dirty/"Uncommitted
changes".  The Node probe (third conjunct), whose ahead/behind promises
carry `.catch(() => "0")`, classifies the same repository Dirty as the
claim states. -/
theorem probe_noUpstream_dirty_diverged :
    (getGitStatus "root/repoC" "root" envNoUpstreamDirty []).1.Symbol = "↕" ∧
    (getGitStatus "root/repoC" "root" envNoUpstreamDirty []).1.Message =
      "Diverged ( ahead,  behind)" ∧
    (jsGetGitStatus "root/repoC"
        ⟨some "?? notes.txt", none, none, some "main", some "abc"⟩ []).1 =
      { symbol := "✗", message := "Uncommitted changes"
        branch := "main", lastCommit := "abc" } := by
  refine ⟨?_, ?_, ?_⟩ <;> decide

/-- Claim C3: the probe is a total function of its inputs — every failure
mode is represented in the returned `GitStatus` — and when the
load-bearing working-tree-status query fails (tool missing, not a
repository, non-zero exit, or timeout: any `CmdFailure` cause), the
result is the Error record with detail "Error accessing repository". -/
theorem probe_total_loadBearing_failure (repoPath baseDir : String)
    (env : GitEnv) (cache : List (String × GitStatus)) (cause : CmdFailure)
    (h : env.statusQuery = Except.error cause) :
    (getGitStatus repoPath baseDir env cache).1 =
      { Symbol := "⚠", Message := "Error accessing repository"
        Branch := "", LastCommit := "", RepoPath := repoPath
        RelativePath := relPathOf baseDir repoPath
        ModTime := env.statModTime.getD 0 } := by
  cases hm : env.statModTime <;> simp [getGitStatus, h, hm]

/-- Witness for C3 at a concrete input: a probe whose status query timed
out on a path with no stat result. -/
theorem probe_total_loadBearing_failure_witness :
    (getGitStatus "root/broken" "root"
        ⟨none, Except.error CmdFailure.timeout, "", "", "", ""⟩ []).1 =
      { Symbol := "⚠", Message := "Error accessing repository"
        Branch := "", LastCommit := "", RepoPath := "root/broken"
        RelativePath := relPathOf "root" "root/broken"
        ModTime := (none : Option Nat).getD 0 } :=
  probe_total_loadBearing_failure "root/broken" "root"
    ⟨none, Except.error CmdFailure.timeout, "", "", "", ""⟩ []
    CmdFailure.timeout rfl

/-- A probe whose status query was killed by the 5-second context
deadline. -/
def envTimeoutProbe : GitEnv :=
  ⟨some 5, Except.error CmdFailure.timeout, "", "", "", ""⟩

/-- Claim C7 counterexample: a probe that failed specifically because the
per-job deadline expired returns the detail "Error accessing repository"
— the very generic detail the claim says it must be distinguishable
from.  No distinct "Timeout" detail exists in the code. -/
theorem probe_timeout_detail_counterexample :
    (getGitStatus "root/slow" "root" envTimeoutProbe []).1.Message =
      "Error accessing repository" := by
  decide

/-- Claim C7 as amended: a deadline expiry produces a result identical to
any other load-bearing failure — kind Error with the generic detail
"Error accessing repository" — so a consumer cannot tell a timeout apart
from other probe failures. -/
theorem probe_timeout_indistinguishable (repoPath baseDir : String)
    (env : GitEnv) (cache : List (String × GitStatus)) :
    getGitStatus repoPath baseDir
        { env with statusQuery := Except.error CmdFailure.timeout } cache =
      getGitStatus repoPath baseDir
        { env with statusQuery := Except.error CmdFailure.other } cache ∧
    (getGitStatus repoPath baseDir
        { env with statusQuery := Except.error CmdFailure.timeout }
        cache).1.Message = "Error accessing repository" := by
  constructor <;> simp [getGitStatus]

/-- Claim C9 counterexample: a completed probe (here an Error result, but
any kind behaves the same) leaves the Go cache exactly as it was — the
entry keyed by the repository's path is never written. -/
theorem cache_not_updated_counterexample :
    (getGitStatus "root/repoA" "root" envTimeoutProbe []).2.lookup
        "root/repoA" = none ∧
    (getGitStatus "root/repoA" "root" envTimeoutProbe []).2 = [] := by
  refine ⟨?_, ?_⟩ <;> decide

/-- Claim C9 as amended: the Go probe ignores the cache it is handed —
caching was removed from `getGitStatus` (source comment: "Remove cache
for now to fix race condition") — while the Node probe stores every
computed result in its cache under the key `repoPath ++ "-status"`
regardless of the result's kind, Error results included. -/
theorem cache_semantics_amended :
    (∀ (repoPath baseDir : String) (env : GitEnv)
        (cache : List (String × GitStatus)),
        (getGitStatus repoPath baseDir env cache).2 = cache) ∧
    (∀ (repoPath : String) (env : JsGitEnv)
        (cache : List (String × JsResult)),
        cache.lookup (repoPath ++ "-status") = none →
          ((jsGetGitStatus repoPath env cache).2).lookup
              (repoPath ++ "-status") =
            some (jsGetGitStatus repoPath env cache).1) := by
  constructor
  · intro repoPath baseDir env cache
    cases h : env.statusQuery <;> simp [getGitStatus, h]
  · intro repoPath env cache h
    cases hs : env.statusQuery <;> simp [jsGetGitStatus, h, hs]

/-- Witness for the amended C9 at a concrete input: a Node probe whose
status query failed (Error result) still writes its cache entry. -/
theorem cache_semantics_amended_witness :
    ((jsGetGitStatus "root/repoA" ⟨none, none, none, none, none⟩ []).2).lookup
        ("root/repoA" ++ "-status") =
      some (jsGetGitStatus "root/repoA" ⟨none, none, none, none, none⟩ []).1 :=
  cache_semantics_amended.2 "root/repoA" ⟨none, none, none, none, none⟩ [] rfl

/-! ### Claim theorems: walker, aggregation, scan pass -/

instance : IsTotal GitStatus (fun a b => b.ModTime ≤ a.ModTime) :=
  ⟨fun a b => Nat.le_total b.ModTime a.ModTime⟩

instance : IsTrans GitStatus (fun a b => b.ModTime ≤ a.ModTime) :=
  ⟨fun _ _ _ hab hbc => Nat.le_trans hbc hab⟩

/-- Two sibling repositories whose roots have the same modification
time: both clean and synced, probed through the same environment. -/
def treeXY : List FsEntry :=
  [FsEntry.dir "x" [FsEntry.dir ".git" []],
   FsEntry.dir "y" [FsEntry.dir ".git" []]]

def envTie : String → GitEnv := fun _ =>
  ⟨some 100, Except.ok "", "0", "0", "main", "abc1234 1 hour ago zkbkb"⟩

/-- Claim C4 counterexample: the walker discovers `[root/x, root/y]` (in
that order); the goroutines may complete in the order `[root/y, root/x]`
(a permutation of discovery order); the aggregated pass then emits the
two equal-`ModTime` results as `[root/y, root/x]` — not in their original
discovery order, refuting the stability clause of the claim. -/
theorem aggregation_tie_counterexample :
    walkWithDepth "root" 0 (-1) treeXY = ["root/x", "root/y"] ∧
    List.Perm ["root/y", "root/x"] ["root/x", "root/y"] ∧
    findGitRepos "root" envTie ["root/y", "root/x"] =
      [runProbe "root" envTie "root/y", runProbe "root" envTie "root/x"] ∧
    (runProbe "root" envTie "root/y").ModTime =
      (runProbe "root" envTie "root/x").ModTime ∧
    runProbe "root" envTie "root/y" ≠ runProbe "root" envTie "root/x" := by
  refine ⟨?_, ?_, ?_, ?_, ?_⟩
  · simp [treeXY, walkWithDepth, walkEntries, skipName]
  · decide
  · decide
  · decide
  · decide

/-- Claim C4 as amended: the aggregated sequence is sorted in descending
order of modification time and is a permutation of the collected results
— but the results are collected in probe completion order and sorted
with the unstable `sort.Slice`, so the relative order of results with
equal modification times is unspecified (it need not be discovery
order). -/
theorem aggregation_sorted_amended (completed : List GitStatus) :
    (sortByModTime completed).Sorted (fun a b => b.ModTime ≤ a.ModTime) ∧
    (sortByModTime completed).Perm completed := by
  constructor
  · exact List.sorted_insertionSort _ completed
  · exact List.perm_insertionSort _ completed

/-- Claim C5 counterexample: `repoA` contains both `.git` and a
subdirectory `.aaa` that sorts before `".git"` in `os.ReadDir`'s
name-sorted listing (checked by the first conjunct).  The walker visits
`.aaa` before reaching the `.git` entry, recurses into this subdirectory
of a repository root, and emits a record for `root/repoA/.aaa` in
addition to `root/repoA`. -/
theorem walker_recurses_before_git_counterexample :
    sortedByName [FsEntry.dir ".aaa" [FsEntry.dir ".git" []],
        FsEntry.dir ".git" []] = true ∧
    walkWithDepth "root" 0 (-1)
        [FsEntry.dir "repoA"
          [FsEntry.dir ".aaa" [FsEntry.dir ".git" []],
           FsEntry.dir ".git" []]] =
      ["root/repoA/.aaa", "root/repoA"] := by
  refine ⟨?_, ?_⟩
  · decide
  · simp [walkWithDepth, walkEntries, skipName]

/-- Claim C5 as amended: once the walker's entry loop reaches the `.git`
entry it emits exactly one record for the current directory and stops —
no entry after `".git"` in the name-sorted listing is visited — but
subdirectories sorting before `".git"` have already been recursed into.
In particular, for `root/repoA/.git` and `root/repoA/vendor/repoB/.git`
the walker emits `repoA` and never `repoB` (`"vendor"` sorts after
`".git"`). -/
theorem walker_stops_at_git_amended :
    (∀ (gitChildren rest : List FsEntry) (p : String) (d : Nat) (m : Int),
        walkEntries p d m (FsEntry.dir ".git" gitChildren :: rest) = [p]) ∧
    walkWithDepth "root" 0 (-1)
        [FsEntry.dir "repoA"
          [FsEntry.dir ".git" [],
           FsEntry.dir "vendor" [FsEntry.dir "repoB" [FsEntry.dir ".git" []]]]] =
      ["root/repoA"] := by
  constructor
  · intro gitChildren rest p d m
    simp [walkEntries]
  · simp [walkWithDepth, walkEntries, skipName]

/-- A linear chain of directories: `chainEntries d` is the listing of a
scan root whose only content is `sub/sub/…/sub` (`d` levels) with the
repository's `.git` directly in the `d`-th level; `chainEntries 0` is a
scan root that is itself a repository. -/
def chainEntries : Nat → List FsEntry
  | 0 => [FsEntry.dir ".git" []]
  | n + 1 => [FsEntry.dir "sub" (chainEntries n)]

def chainPath (p : String) : Nat → String
  | 0 => p
  | n + 1 => chainPath (p ++ "/" ++ "sub") n

theorem walk_chain (d : Nat) : ∀ (k : Nat) (p : String) (m : Int),
    walkWithDepth p k m (chainEntries d) =
      if m = -1 ∨ (k + d : Int) ≤ m then [chainPath p d] else [] := by
  induction d with
  | zero =>
    intro k p m
    rw [walkWithDepth]
    by_cases hg : m ≠ -1 ∧ (k : Int) > m
    · rw [if_pos hg, if_neg (by omega)]
    · rw [if_neg hg, if_pos (by omega)]
      simp [chainEntries, walkEntries, chainPath]
  | succ d ih =>
    intro k p m
    rw [walkWithDepth]
    by_cases hg : m ≠ -1 ∧ (k : Int) > m
    · rw [if_pos hg, if_neg (by push_cast; omega)]
    · rw [if_neg hg]
      have hchild := ih (k + 1) (p ++ "/" ++ "sub") m
      rw [walkWithDepth] at hchild
      simp only [chainEntries, walkEntries]
      rw [if_neg (show ¬ ("sub" = ".git") by decide)]
      rw [if_neg (show ¬ (skipName "sub" = true) by decide)]
      push_cast at hchild ⊢
      rw [List.append_nil, hchild]
      show (if m = -1 ∨ (k : Int) + 1 + (d : Int) ≤ m
          then [chainPath (p ++ "/" ++ "sub") d] else []) = _
      split_ifs with h1 h2 h2 <;> first | rfl | (exfalso; omega)

/-- Claim C6: depth accounting with the root at depth 0 and `-1` as the
unlimited sentinel — for a repository rooted `d` levels below the scan
root, the walk discovers it (emitting exactly its root path) precisely
when `maxDepth = -1` or `d ≤ maxDepth`, and discovers nothing otherwise;
instantiating: depth 3 is missed for `maxDepth ∈ {1, 2}`, depth 2 is
found for `maxDepth = 2`, and any depth is found for `maxDepth = -1`. -/
theorem walker_depth_accounting (d : Nat) (m : Int) :
    walkWithDepth "root" 0 m (chainEntries d) =
      if m = -1 ∨ (d : Int) ≤ m then [chainPath "root" d] else [] := by
  have h := walk_chain d 0 "root" m
  simpa using h

/-- Claim C8: every repository root discovered by the walker yields
exactly one result in the pass's aggregated output — none dropped, none
duplicated — whatever order the probes complete in and whatever the
probes' outcomes (including failures and timeouts, since the probe is a
total function into `GitStatus`): for every path `r`, the number of
results carrying `RepoPath = r` equals the number of times the walker
discovered `r`. -/
theorem scan_pass_cardinality (baseDir : String) (maxDepth : Int)
    (root : List FsEntry) (envOf : String → GitEnv) (completed : List String)
    (hperm : completed.Perm (walkWithDepth baseDir 0 maxDepth root))
    (r : String) :
    (findGitRepos baseDir envOf completed).countP
        (fun s => s.RepoPath == r) =
      (walkWithDepth baseDir 0 maxDepth root).count r := by
  unfold findGitRepos sortByModTime
  rw [List.Perm.countP_eq _ (List.perm_insertionSort _ _)]
  rw [List.countP_map]
  have hrp : ∀ rp, (runProbe baseDir envOf rp).RepoPath = rp := by
    intro rp
    unfold runProbe getGitStatus
    cases (envOf rp).statusQuery <;> rfl
  have hfun : ((fun s => s.RepoPath == r) ∘ runProbe baseDir envOf) =
      (fun rp => rp == r) := by
    funext rp
    simp [Function.comp, hrp]
  rw [hfun, ← List.count, hperm.count_eq]

/-- Witness for C8 at a concrete input: the two-repository tree with the
probes completing in discovery order. -/
theorem scan_pass_cardinality_witness :
    (findGitRepos "root" envTie ["root/x", "root/y"]).countP
        (fun s => s.RepoPath == "root/x") =
      (walkWithDepth "root" 0 (-1) treeXY).count "root/x" :=
  scan_pass_cardinality "root" (-1) treeXY envTie ["root/x", "root/y"]
    (by simp [treeXY, walkWithDepth, walkEntries, skipName]) "root/x"

/-- Claim C10: the Go walker's effective skip set is exactly the three
literal names `node_modules`, `.cache`, `.venv` (plus the `.git` entry,
which terminates descent): the walker descends into a directory of any
other name; the configuration's default `skip_directories` list contains
`vendor`, `target`, `build` and `__pycache__`, yet `walkWithDepth` never
consults it, so a repository nested under such a directory is still
discovered. -/
theorem walker_skip_set_exact :
    (∀ name : String, (skipName name = true) ↔
        name ∈ (["node_modules", ".cache", ".venv"] : List String)) ∧
    (∀ (name : String), ¬ name = ".git" → skipName name = false →
        ∀ (children : List FsEntry) (p : String) (d : Nat),
          walkEntries p d (-1) [FsEntry.dir name children] =
            walkEntries (p ++ "/" ++ name) (d + 1) (-1) children) ∧
    ("vendor" ∈ defaultSkipDirs ∧ "target" ∈ defaultSkipDirs ∧
     "build" ∈ defaultSkipDirs ∧ "__pycache__" ∈ defaultSkipDirs) ∧
    (∀ (name : String), ¬ name = ".git" → skipName name = false →
        walkWithDepth "root" 0 (-1)
            [FsEntry.dir name [FsEntry.dir ".git" []]] =
          ["root/" ++ name]) := by
  refine ⟨?_, ?_, ?_, ?_⟩
  · intro name
    simp [skipName, or_assoc]
  · intro name h1 h2 children p d
    simp [walkEntries, h1, h2]
  · refine ⟨?_, ?_, ?_, ?_⟩ <;> simp [defaultSkipDirs]
  · intro name h1 h2
    simp [walkWithDepth, walkEntries, h1, h2]

/-- Witness for C10 at a concrete input: a repository nested under a
`vendor` directory — in the configuration's skip list but not the
walker's — is discovered. -/
theorem walker_skip_set_exact_witness :
    walkWithDepth "root" 0 (-1)
        [FsEntry.dir "vendor" [FsEntry.dir ".git" []]] =
      ["root/" ++ "vendor"] :=
  walker_skip_set_exact.2.2.2 "vendor" (by decide) (by decide)
